import Mathlib

/-!
Shallow embedding of `01_intro_to_bayesian_methods/src/intermittent_slider.py`
and proofs about its core components: the Gilbert burst channel, the
region-posterior computation `box_probability`, and the observation
synthesis of `SliderDemo.update_state` / `update_filter`.

Reals that the Python code manipulates exactly (region bounds, particle
positions, weights, priors, uniform draws compared against thresholds) are
modelled as rationals so that everything evaluates; the Gilbert channel's
time scaling `1 - (1 - p) ** dt` needs a real exponent, so that component is
modelled over `ℝ` with `Real.rpow`.  A float `NaN` position is modelled as
`none : Option ℚ`, whose comparisons are `false` on both sides, exactly the
IEEE behaviour `np.logical_and(xs > left, xs < right)` relies on.
-/

namespace IntermittentSlider

/-- A particle is a state vector `(position, velocity)`; the position may be
`NaN` (modelled as `none`). -/
abbrev Particle : Type := Option ℚ × ℚ

/-- `Box(name, left, right, prior, color)` from the source: plain record,
the constructor performs no validation. -/
structure Box where
  name : String
  left : ℚ
  right : ℚ
  prior : ℚ
  color : String
deriving DecidableEq

/-- `Box.__init__`: stores the five fields unchanged, accepts any values. -/
def Box.init (name : String) (left right prior : ℚ) (color : String) : Box :=
  { name := name, left := left, right := right, prior := prior, color := color }

/-- IEEE-style strict comparison on possibly-NaN values: any comparison
involving `NaN` (`none`) is `false`. -/
def qlt (a b : Option ℚ) : Bool :=
  match a, b with
  | some x, some y => x < y
  | _, _ => false

/-- Membership test of `box_probability`:
`np.logical_and(xs > box.left, xs < box.right)` — strict on both bounds. -/
def inBox (b : Box) (x : Option ℚ) : Bool :=
  qlt (some b.left) x && qlt x (some b.right)

/-- One box's unnormalized mass
`np.sum(weights[np.logical_and(xs > box.left, xs < box.right)] * box.prior)`:
the weights of the particles strictly inside the box, summed, times the prior. -/
def boxMass (particles : List Particle) (weights : List ℚ) (b : Box) : ℚ :=
  ((((particles.zip weights).filter (fun pw => inBox b pw.1.1)).map Prod.snd).sum) * b.prior

/-- The pre-normalization score vector of `box_probability`:
per-box mass plus the additive smoothing constant `1e-6`
(`probs = np.array(probs) + 1e-6`). -/
def box_scores (particles : List Particle) (weights : List ℚ) (boxes : List Box) : List ℚ :=
  boxes.map (fun b => boxMass particles weights b + 1 / 1000000)

/-- `box_probability(particles, weights, boxes)`: smoothed scores divided by
their sum (`return probs / np.sum(probs)`). -/
def box_probability (particles : List Particle) (weights : List ℚ) (boxes : List Box) : List ℚ :=
  (box_scores particles weights boxes).map
    (fun p => p / (box_scores particles weights boxes).sum)

/-- The region configuration of `create_slider`. -/
def demo_boxes : List Box :=
  [Box.init "A" 0 (1 / 10) (1 / 4) "#ff7200",
   Box.init "X" (1 / 10) (9 / 10) (1 / 4) "#3e3e3f",
   Box.init "B" (9 / 10) 1 (1 / 2) "#086375"]

/-- The spec's end-to-end scenario cloud: positions `0.05, 0.5, 0.5, 0.95`. -/
def demo_particles : List Particle :=
  [(some (1 / 20), 0), (some (1 / 2), 0), (some (1 / 2), 0), (some (19 / 20), 0)]

/-- Equal weights `0.25` for the scenario cloud. -/
def demo_weights : List ℚ := [1 / 4, 1 / 4, 1 / 4, 1 / 4]

/-! ### Helper lemmas about `box_probability` -/

lemma sum_map_div (l : List ℚ) (s : ℚ) :
    (l.map (fun p => p / s)).sum = l.sum / s := by
  induction l with
  | nil => simp
  | cons a t ih => simp [ih, add_div]

lemma snd_mem_of_mem_zip {α β : Type} {l₁ : List α} {l₂ : List β} {p : α × β}
    (h : p ∈ l₁.zip l₂) : p.2 ∈ l₂ := by
  induction l₁ generalizing l₂ with
  | nil => simp [List.zip] at h
  | cons a t ih =>
    cases l₂ with
    | nil => simp [List.zip] at h
    | cons b u =>
      rcases List.mem_cons.1 h with h1 | h2
      · subst h1; exact List.mem_cons_self _ _
      · exact List.mem_cons_of_mem _ (ih h2)

lemma boxMass_nonneg (particles : List Particle) (weights : List ℚ) (b : Box)
    (hw : ∀ w ∈ weights, 0 ≤ w) (hb : 0 ≤ b.prior) :
    0 ≤ boxMass particles weights b := by
  refine mul_nonneg (List.sum_nonneg ?_) hb
  intro x hx
  simp only [List.mem_map] at hx
  obtain ⟨pw, hpw, rfl⟩ := hx
  exact hw _ (snd_mem_of_mem_zip (List.mem_of_mem_filter hpw))

lemma box_scores_pos (particles : List Particle) (weights : List ℚ) (boxes : List Box)
    (hw : ∀ w ∈ weights, 0 ≤ w) (hb : ∀ b ∈ boxes, 0 ≤ b.prior) :
    ∀ q ∈ box_scores particles weights boxes, 0 < q := by
  intro q hq
  simp only [box_scores, List.mem_map] at hq
  obtain ⟨b, hbm, rfl⟩ := hq
  have h := boxMass_nonneg particles weights b hw (hb b hbm)
  linarith

lemma box_scores_sum_pos (particles : List Particle) (weights : List ℚ) (boxes : List Box)
    (hne : boxes ≠ []) (hw : ∀ w ∈ weights, 0 ≤ w) (hb : ∀ b ∈ boxes, 0 ≤ b.prior) :
    0 < (box_scores particles weights boxes).sum := by
  refine List.sum_pos _ (box_scores_pos particles weights boxes hw hb) ?_
  simp only [box_scores, ne_eq, List.map_eq_nil_iff]
  exact hne

/-- Claim C1: for every non-empty list of regions and every particle cloud with
non-negative weights (and the data model's non-negative region priors), the
vector returned by `box_probability` sums to exactly 1, including when every
pre-smoothing score is zero. -/
theorem C1_box_probability_sums_to_one (particles : List Particle) (weights : List ℚ)
    (boxes : List Box) (hne : boxes ≠ []) (hw : ∀ w ∈ weights, 0 ≤ w)
    (hb : ∀ b ∈ boxes, 0 ≤ b.prior) :
    (box_probability particles weights boxes).sum = 1 := by
  unfold box_probability
  rw [sum_map_div]
  exact div_self (ne_of_gt (box_scores_sum_pos particles weights boxes hne hw hb))

/-- Witness for C1 at a concrete input: one particle, weight 1, the demo
regions; moreover the particle sits outside every region, so all
pre-smoothing scores are zero. -/
theorem C1_witness :
    (box_probability [((some 5 : Option ℚ), (0 : ℚ))] [(1 : ℚ)] demo_boxes).sum = 1 :=
  C1_box_probability_sums_to_one _ _ _ (by simp [demo_boxes])
    (by intro w hw; simp only [List.mem_singleton] at hw; simp [hw])
    (by intro b hb; fin_cases hb <;> norm_num [Box.init])

lemma boxMass_append_excluded (particles : List Particle) (weights : List ℚ)
    (h : particles.length = weights.length) (p : Particle) (w : ℚ) (b : Box)
    (hp : inBox b p.1 = false) :
    boxMass (particles ++ [p]) (weights ++ [w]) b = boxMass particles weights b := by
  unfold boxMass
  rw [List.zip_append h, List.filter_append]
  simp [hp]

/-- Claim C4: a particle whose position equals a region's `left` or `right`
bound exactly is strictly inside on neither side, so it contributes nothing
to that region's unnormalized score. -/
theorem C4_boundary_exclusion (particles : List Particle) (weights : List ℚ)
    (h : particles.length = weights.length) (b : Box) (x v w : ℚ)
    (hx : x = b.left ∨ x = b.right) :
    inBox b (some x) = false ∧
    boxMass (particles ++ [(some x, v)]) (weights ++ [w]) b = boxMass particles weights b := by
  have hib : inBox b (some x) = false := by
    rcases hx with rfl | rfl <;> simp [inBox, qlt, lt_irrefl]
  exact ⟨hib, boxMass_append_excluded _ _ h _ _ _ hib⟩

/-- Witness for C4: the spec's example, region `(left = 0.1, right = 0.9)` and
a single particle at position `0.1` with weight `1`; its score is exactly 0. -/
theorem C4_witness :
    inBox (Box.init "X" (1 / 10) (9 / 10) (1 / 4) "#3e3e3f") (some (1 / 10)) = false ∧
    boxMass [((some (1 / 10) : Option ℚ), (0 : ℚ))] [(1 : ℚ)]
        (Box.init "X" (1 / 10) (9 / 10) (1 / 4) "#3e3e3f") = 0 := by
  have h := C4_boundary_exclusion [] [] rfl
    (Box.init "X" (1 / 10) (9 / 10) (1 / 4) "#3e3e3f") (1 / 10) 0 1 (Or.inl rfl)
  refine ⟨h.1, ?_⟩
  have h2 := h.2
  simp only [List.nil_append] at h2
  rw [h2]
  simp [boxMass]

/-- Claim C5: with a non-empty region list (and the data model's non-negative
weights and priors), every entry of the normalized posterior is strictly
positive, because `1e-6` is added to every score before normalization. -/
theorem C5_posterior_entries_positive (particles : List Particle) (weights : List ℚ)
    (boxes : List Box) (hne : boxes ≠ []) (hw : ∀ w ∈ weights, 0 ≤ w)
    (hb : ∀ b ∈ boxes, 0 ≤ b.prior) :
    ∀ q ∈ box_probability particles weights boxes, 0 < q := by
  intro q hq
  simp only [box_probability, List.mem_map] at hq
  obtain ⟨p, hp, rfl⟩ := hq
  exact div_pos (box_scores_pos _ _ _ hw hb p hp) (box_scores_sum_pos _ _ _ hne hw hb)

/-- Witness for C5 at a concrete degenerate input: the single particle lies
strictly outside every demo region, yet the first posterior entry is
positive. -/
theorem C5_witness :
    0 < (box_probability [((some 5 : Option ℚ), (0 : ℚ))] [(1 : ℚ)] demo_boxes).getD 0 0 := by
  have hc : box_probability [((some 5 : Option ℚ), (0 : ℚ))] [(1 : ℚ)] demo_boxes =
      [1 / 3, 1 / 3, 1 / 3] := by
    norm_num [box_probability, box_scores, boxMass, demo_boxes, Box.init, inBox, qlt]
  refine C5_posterior_entries_positive [((some 5 : Option ℚ), (0 : ℚ))] [(1 : ℚ)]
    demo_boxes (by simp [demo_boxes])
    (by intro w hw; simp only [List.mem_singleton] at hw; simp [hw])
    (by intro b hb; fin_cases hb <;> norm_num [Box.init]) _ ?_
  rw [hc]
  simp

/-- Claim C6: the end-to-end scenario from the spec, with `create_slider`'s
three regions and four particles at positions `0.05, 0.5, 0.5, 0.95`, each of
weight `0.25`: pre-normalization scores `0.0625 + 1e-6`, `0.125 + 1e-6`,
`0.125 + 1e-6`, and a normalized posterior within `1e-3` of
`[0.2, 0.4, 0.4]`. -/
theorem C6_end_to_end :
    box_scores demo_particles demo_weights demo_boxes =
      [1 / 16 + 1 / 1000000, 1 / 8 + 1 / 1000000, 1 / 8 + 1 / 1000000]
    ∧ box_probability demo_particles demo_weights demo_boxes =
      [62501 / 312503, 125001 / 312503, 125001 / 312503]
    ∧ ((box_probability demo_particles demo_weights demo_boxes).zip
        [1 / 5, 2 / 5, 2 / 5]).all (fun pq => |pq.1 - pq.2| ≤ 1 / 1000) = true := by
  have hs : box_scores demo_particles demo_weights demo_boxes =
      [1 / 16 + 1 / 1000000, 1 / 8 + 1 / 1000000, 1 / 8 + 1 / 1000000] := by
    norm_num [box_scores, boxMass, demo_particles, demo_weights, demo_boxes, Box.init,
      inBox, qlt]
  have hp : box_probability demo_particles demo_weights demo_boxes =
      [62501 / 312503, 125001 / 312503, 125001 / 312503] := by
    rw [box_probability, hs]
    norm_num
  refine ⟨hs, hp, ?_⟩
  rw [hp]
  norm_num [List.all_cons, abs_le]

/-- Claim C8: a particle whose position is `NaN` (modelled as `none`, with
IEEE comparisons returning false) is excluded from every region's membership
test, so it never contributes to any score and the output probabilities are
unchanged by its presence. -/
theorem C8_nan_position_excluded (particles : List Particle) (weights : List ℚ)
    (h : particles.length = weights.length) (v w : ℚ) (boxes : List Box) (b : Box) :
    inBox b none = false ∧
    box_probability (particles ++ [(none, v)]) (weights ++ [w]) boxes =
      box_probability particles weights boxes := by
  refine ⟨rfl, ?_⟩
  have hsc : box_scores (particles ++ [(none, v)]) (weights ++ [w]) boxes =
      box_scores particles weights boxes := by
    unfold box_scores
    refine List.map_congr_left ?_
    intro b2 _
    rw [boxMass_append_excluded particles weights h (none, v) w b2 rfl]
  unfold box_probability
  rw [hsc]

/-- Witness for C8: appending a NaN-position particle of weight 2 to a
one-particle cloud leaves the demo posterior unchanged. -/
theorem C8_witness :
    box_probability [((some (1 / 2) : Option ℚ), (0 : ℚ)), ((none : Option ℚ), (3 : ℚ))]
        [(1 : ℚ), (2 : ℚ)] demo_boxes =
      box_probability [((some (1 / 2) : Option ℚ), (0 : ℚ))] [(1 : ℚ)] demo_boxes := by
  have h := (C8_nan_position_excluded [((some (1 / 2) : Option ℚ), (0 : ℚ))] [(1 : ℚ)]
    rfl 3 2 demo_boxes (Box.init "A" 0 (1 / 10) (1 / 4) "#ff7200")).2
  simpa using h

/-! ### The Gilbert burst channel -/

/-- The time scaling `1 - (1 - p) ** dt` applied to both base probabilities
at the top of `Gilbert.update` ("account for sampling rate"). -/
noncomputable def pscale (p dt : ℝ) : ℝ := 1 - (1 - p) ^ dt

/-- The `Gilbert` object: two base transition probabilities and the current
state (`0` = Available, `1` = Bursty). -/
structure Gilbert where
  p1 : ℝ
  p2 : ℝ
  state : ℕ

/-- `Gilbert.__init__(p1, p2)`: stores the probabilities unvalidated and sets
`state = 0`. -/
def Gilbert.init (p1 p2 : ℝ) : Gilbert := { p1 := p1, p2 := p2, state := 0 }

/-- `Gilbert.update(dt)`.  The random draws are supplied as an explicit
stream `draws`; the returned `ℕ` counts how many draws the call consumed
(each `np.random.random()` evaluation).  The two `if` statements of the
source are kept as written: the second one re-tests the state already
modified by the first. -/
noncomputable def Gilbert.update (g : Gilbert) (dt : ℝ) (draws : ℕ → ℝ) : Gilbert × ℕ :=
  let q1 := pscale g.p1 dt
  let q2 := pscale g.p2 dt
  let r1 : ℕ × ℕ :=
    if g.state = 0 then (if draws 0 < q1 then (1, 1) else (0, 1)) else (g.state, 0)
  let r2 : ℕ × ℕ :=
    if r1.1 = 1 then ((if draws r1.2 < q2 then 0 else 1), r1.2 + 1) else r1
  ({ g with state := r2.1 }, r2.2)

lemma update_from_one (g : Gilbert) (dt : ℝ) (draws : ℕ → ℝ) (h1 : g.state = 1) :
    (g.update dt draws).2 = 1
    ∧ (g.update dt draws).1.state = if draws 0 < pscale g.p2 dt then 0 else 1 := by
  simp [Gilbert.update, h1]

lemma update_from_zero_stay (g : Gilbert) (dt : ℝ) (draws : ℕ → ℝ) (h0 : g.state = 0)
    (hnd : ¬ draws 0 < pscale g.p1 dt) :
    (g.update dt draws).2 = 1 ∧ (g.update dt draws).1.state = 0 := by
  simp [Gilbert.update, h0, hnd]

lemma update_from_zero_two_draws (g : Gilbert) (dt : ℝ) (draws : ℕ → ℝ) (h0 : g.state = 0)
    (hd : draws 0 < pscale g.p1 dt) :
    (g.update dt draws).2 = 2
    ∧ (g.update dt draws).1.state = if draws 1 < pscale g.p2 dt then 0 else 1 := by
  simp [Gilbert.update, h0, hd]

/-- Claim C10: the burst-channel state always stays in `{0, 1}`: the
constructor initializes it to `0`, and `Gilbert.update` maps any state in
`{0, 1}` back into `{0, 1}` for every `dt` and every draw stream. -/
theorem C10_state_in_zero_one :
    (∀ p1 p2 : ℝ, (Gilbert.init p1 p2).state = 0)
    ∧ (∀ (g : Gilbert) (dt : ℝ) (draws : ℕ → ℝ), g.state = 0 ∨ g.state = 1 →
        (g.update dt draws).1.state = 0 ∨ (g.update dt draws).1.state = 1) := by
  refine ⟨fun p1 p2 => rfl, ?_⟩
  intro g dt draws h
  rcases h with h | h
  · by_cases hd : draws 0 < pscale g.p1 dt
    · rw [(update_from_zero_two_draws g dt draws h hd).2]
      split_ifs <;> simp
    · exact Or.inl (update_from_zero_stay g dt draws h hd).2
  · rw [(update_from_one g dt draws h).2]
    split_ifs <;> simp

/-- Witness for C10 at a concrete channel and draw stream. -/
theorem C10_witness :
    ((Gilbert.init 1 1).update 0 (fun _ => 0)).1.state = 0
    ∨ ((Gilbert.init 1 1).update 0 (fun _ => 0)).1.state = 1 :=
  C10_state_in_zero_one.2 (Gilbert.init 1 1) 0 (fun _ => 0) (Or.inl rfl)

/-! ### Observation synthesis (`SliderDemo.update_state` / `update_filter`) -/

/-- The availability decision of `update_state`: in state `0` the draw is
compared against the hard-coded `0.9`, in any other state against the
configured `sampling_intermittency`. -/
def decide_observed (state : ℕ) (sampling u : ℚ) : Bool :=
  if state = 0 then u < 9 / 10 else u < sampling

/-- The observation handed to the filter in `update_filter`:
`self.observed_x if self.observed else np.nan`, with `NaN` (missing)
modelled as `none`. -/
def observation_value (observed : Bool) (observed_x : ℚ) : Option ℚ :=
  if observed then some observed_x else none

/-- The `obs_x` field logged in `draw`:
`np.nan if not self.observed else self.observed_x`. -/
def logged_obs_x (observed : Bool) (observed_x : ℚ) : Option ℚ :=
  if !observed then none else some observed_x

/-- Claim C7: in the Bursty state (state `1`) with `sampling_intermittency`
set to `0`, every tick decides `observed = false` (any uniform draw is
`≥ 0`, never `< 0`), so the filter receives a missing observation and the
logged `obs_x` is `NaN`/missing. -/
theorem C7_no_spurious_observations (sampling u observed_x : ℚ) (hs : sampling = 0)
    (hu : 0 ≤ u) :
    decide_observed 1 sampling u = false
    ∧ observation_value (decide_observed 1 sampling u) observed_x = none
    ∧ logged_obs_x (decide_observed 1 sampling u) observed_x = none := by
  subst hs
  have h : ¬ u < 0 := not_lt.2 hu
  simp [decide_observed, observation_value, logged_obs_x, h]

/-- Witness for C7 at a concrete draw and observation position. -/
theorem C7_witness :
    decide_observed 1 0 (1 / 3) = false
    ∧ observation_value (decide_observed 1 0 (1 / 3)) 7 = none
    ∧ logged_obs_x (decide_observed 1 0 (1 / 3)) 7 = none :=
  C7_no_spurious_observations 0 (1 / 3) 7 rfl (by norm_num)

/-! ### Construction performs no validation -/

/-- Counterexample for C9: a `Box` with `left = 1 > right = 0` and a
`Gilbert` with base probability `2 ∉ [0,1)` are both constructed without any
error: the invalid values are stored verbatim and the channel state is
created and initialized. -/
theorem C9_counterexample :
    (Box.init "bad" 1 0 (1 / 4) "#000000").right < (Box.init "bad" 1 0 (1 / 4) "#000000").left
    ∧ (Box.init "bad" 1 0 (1 / 4) "#000000").left = 1
    ∧ (Box.init "bad" 1 0 (1 / 4) "#000000").right = 0
    ∧ 1 ≤ (Gilbert.init 2 (3 / 10)).p1
    ∧ (Gilbert.init 2 (3 / 10)).p1 = 2
    ∧ (Gilbert.init 2 (3 / 10)).state = 0 :=
  ⟨by norm_num [Box.init], rfl, rfl, by norm_num [Gilbert.init], rfl, rfl⟩

/-- Claim C9 as amended: construction never fails and never validates:
`Box.__init__` and `Gilbert.__init__` are total, accept every input
(including `left ≥ right` and probabilities outside `[0,1)`), and store the
supplied values unchanged, never clamped. -/
theorem C9_amended_no_validation (name : String) (left right prior : ℚ) (color : String)
    (p1 p2 : ℝ) :
    (Box.init name left right prior color).left = left
    ∧ (Box.init name left right prior color).right = right
    ∧ (Box.init name left right prior color).prior = prior
    ∧ (Gilbert.init p1 p2).p1 = p1
    ∧ (Gilbert.init p1 p2).p2 = p2
    ∧ (Gilbert.init p1 p2).state = 0 :=
  ⟨rfl, rfl, rfl, rfl, rfl, rfl⟩

/-! ### Draw counting in `Gilbert.update` (claim C2) -/

/-- Counterexample for C2: with both base probabilities `1/2`, `dt = 1` and a
draw stream that always returns `0`, a single call to `Gilbert.update` from
state `0` consumes **two** uniform draws, not one, and transitions twice
(`0 → 1 → 0`), returning to state `0` even though the first draw was below
the scaled transition probability. -/
theorem C2_counterexample :
    ((Gilbert.init (1 / 2) (1 / 2)).update 1 (fun _ => 0)).2 = 2
    ∧ ((Gilbert.init (1 / 2) (1 / 2)).update 1 (fun _ => 0)).1.state = 0 := by
  have hps : pscale (1 / 2 : ℝ) 1 = 1 / 2 := by
    simp only [pscale, Real.rpow_one]; norm_num
  have h := update_from_zero_two_draws (Gilbert.init (1 / 2) (1 / 2)) 1 (fun _ => 0) rfl
    (by simp only [Gilbert.init]; rw [hps]; norm_num)
  simp only [Gilbert.init] at h
  simp only [hps] at h
  norm_num at h
  exact h

/-- Claim C2 as amended: a call to `Gilbert.update` from state `1` consumes
exactly one draw and transitions at most once; from state `0` it consumes one
draw if that draw is not below the scaled `p1` (and stays in `0`), but if the
first draw is below the scaled `p1` it consumes a **second** draw and can
transition a second time, back to `0`. -/
theorem C2_amended_update_draws (g : Gilbert) (dt : ℝ) (draws : ℕ → ℝ) :
    (g.state = 1 →
      (g.update dt draws).2 = 1
      ∧ (g.update dt draws).1.state = if draws 0 < pscale g.p2 dt then 0 else 1)
    ∧ (g.state = 0 → ¬ draws 0 < pscale g.p1 dt →
      (g.update dt draws).2 = 1 ∧ (g.update dt draws).1.state = 0)
    ∧ (g.state = 0 → draws 0 < pscale g.p1 dt →
      (g.update dt draws).2 = 2
      ∧ (g.update dt draws).1.state = if draws 1 < pscale g.p2 dt then 0 else 1) :=
  ⟨update_from_one g dt draws,
   update_from_zero_stay g dt draws,
   update_from_zero_two_draws g dt draws⟩

/-- Witness for the amended C2 at a concrete channel: base probabilities
`3/4` and `1/2`, `dt = 1`, all draws `1/8`: two draws are consumed and the
state returns to `0`. -/
theorem C2_witness :
    ((Gilbert.init (3 / 4) (1 / 2)).update 1 (fun _ => 1 / 8)).2 = 2
    ∧ ((Gilbert.init (3 / 4) (1 / 2)).update 1 (fun _ => 1 / 8)).1.state = 0 := by
  have hp1 : pscale (3 / 4 : ℝ) 1 = 3 / 4 := by
    simp only [pscale, Real.rpow_one]; norm_num
  have hp2 : pscale (1 / 2 : ℝ) 1 = 1 / 2 := by
    simp only [pscale, Real.rpow_one]; norm_num
  have h := (C2_amended_update_draws (Gilbert.init (3 / 4) (1 / 2)) 1 (fun _ => 1 / 8)).2.2
    rfl (by simp only [Gilbert.init]; rw [hp1]; norm_num)
  simp only [Gilbert.init] at h
  simp only [hp2] at h
  norm_num at h
  exact h

/-! ### The time-scaled transition probability (claim C3) -/

/-- Claim C3: for `p ∈ [0,1)` the scaled probability `1 - (1 - p) ^ dt` is
exactly `0` at `dt = 0` (so `update` with `dt = 0` never changes the state,
given non-negative draws), lies in `[0,1]` for every `dt ≥ 0`, and tends to
`1` as `dt → ∞` when `p > 0`. -/
theorem C3_time_scaled_probability (p : ℝ) (hp0 : 0 ≤ p) (hp1 : p < 1) :
    pscale p 0 = 0
    ∧ (∀ dt : ℝ, 0 ≤ dt → 0 ≤ pscale p dt ∧ pscale p dt ≤ 1)
    ∧ (0 < p → Filter.Tendsto (fun dt => pscale p dt) Filter.atTop (nhds 1))
    ∧ (∀ (g : Gilbert) (draws : ℕ → ℝ), 0 ≤ draws 0 → 0 ≤ draws 1 →
        (g.update 0 draws).1.state = g.state) := by
  refine ⟨by simp [pscale], ?_, ?_, ?_⟩
  · intro dt hdt
    have hle := Real.rpow_le_one (by linarith) (by linarith : 1 - p ≤ 1) hdt
    have hge := Real.rpow_nonneg (by linarith : (0 : ℝ) ≤ 1 - p) dt
    constructor <;> simp only [pscale] <;> linarith
  · intro hp
    have h := tendsto_rpow_atTop_of_base_lt_one (1 - p) (by linarith) (by linarith)
    have h2 := h.const_sub 1
    simpa [pscale] using h2
  · intro g draws h0 h1
    have hq1 : pscale g.p1 0 = 0 := by simp [pscale]
    have hq2 : pscale g.p2 0 = 0 := by simp [pscale]
    rcases Nat.eq_zero_or_pos g.state with hz | hpos
    · have h := update_from_zero_stay g 0 draws hz (by rw [hq1]; exact not_lt.2 h0)
      rw [h.2, hz]
    · by_cases hone : g.state = 1
      · have h := (update_from_one g 0 draws hone).2
        rw [hq2] at h
        rw [h, if_neg (not_lt.2 h0), hone]
      · have hne : g.state ≠ 0 := Nat.pos_iff_ne_zero.1 hpos
        simp [Gilbert.update, hne, hone]

/-- Witness for C3 at `p = 1/2`: zero at `dt = 0`, and within `[0,1]` at
`dt = 2`. -/
theorem C3_witness :
    pscale (1 / 2 : ℝ) 0 = 0
    ∧ 0 ≤ pscale (1 / 2 : ℝ) 2 ∧ pscale (1 / 2 : ℝ) 2 ≤ 1 := by
  have h := C3_time_scaled_probability (1 / 2) (by norm_num) (by norm_num)
  exact ⟨h.1, (h.2.1 2 (by norm_num)).1, (h.2.1 2 (by norm_num)).2⟩

end IntermittentSlider
